import Mathlib

/-!
# Verification of the `python-async-tools` benchmark harness

Shallow embedding of the core of the repository: the statistics module
(`utils.py`), the three concurrency backend adapters (`backends.py`), the
scenario modules (`benchmarks/*.py`) and the orchestrator (`runner.py`),
together with theorems settling the specification claims.

Python floats are modelled as rationals (`ℚ`); Python lists as `List`;
fallible operations (list indexing, division) return `Option`.
-/

namespace AsyncBench

/-! ## Python primitives -/

/-- Python `int()` truncation toward zero on a rational. -/
def pyInt (q : ℚ) : ℤ := if q < 0 then ⌈q⌉ else ⌊q⌋

theorem pyInt_of_nonneg {q : ℚ} (h : 0 ≤ q) : pyInt q = ⌊q⌋ := by
  simp [pyInt, not_lt.mpr h]

/-- Python list indexing `l[i]`: negative indices count from the end,
out-of-range indexing raises (`none`). -/
def pyGet (l : List ℚ) (i : ℤ) : Option ℚ :=
  if 0 ≤ i then l.get? i.toNat
  else if (-i).toNat ≤ l.length then l.get? (l.length - (-i).toNat)
  else none

/-- Python true division `a / b`: raises `ZeroDivisionError` on `b = 0`. -/
def pyDiv (a b : ℚ) : Option ℚ := if b = 0 then none else some (a / b)

/-! ## `utils.py` — statistics module -/

/-- `percentile(values, pct)` from `utils.py`: copies the input, returns 0.0
when empty, otherwise sorts the copy and linearly interpolates with
`k = (len-1)*(pct/100)`, `f = int(k)`, `c = min(f+1, len-1)`. -/
def percentile (values : List ℚ) (pct : ℚ) : Option ℚ :=
  let vals := values.insertionSort (· ≤ ·)
  if vals.length = 0 then some 0
  else
    let n : ℤ := vals.length
    let k : ℚ := ((n : ℚ) - 1) * (pct / 100)
    let f : ℤ := pyInt k
    let c : ℤ := min (f + 1) (n - 1)
    if f = c then pyGet vals (pyInt k)
    else do
      let vf ← pyGet vals f
      let vc ← pyGet vals c
      some (vf * ((c : ℚ) - k) + vc * (k - (f : ℚ)))

/-- `mean(values)` from `utils.py`: arithmetic mean, 0.0 on empty input. -/
def mean (values : List ℚ) : ℚ :=
  if values.length = 0 then 0 else values.sum / values.length

/-- Reference percentile following the spec's words: sort the sample,
compute rank `k = (n-1)*pct/100`, and linearly interpolate between the order
statistics at `floor k` and `ceil k`. -/
def percentileRef (values : List ℚ) (pct : ℚ) : Option ℚ :=
  let vals := values.insertionSort (· ≤ ·)
  if vals.length = 0 then some 0
  else
    let n : ℤ := vals.length
    let k : ℚ := ((n : ℚ) - 1) * (pct / 100)
    do
      let vf ← pyGet vals ⌊k⌋
      let vc ← pyGet vals ⌈k⌉
      some (vf + (k - ((⌊k⌋ : ℤ) : ℚ)) * (vc - vf))

/-- The caller-visible effect of `percentile`: the function copies `values`
into a private list (`vals = list(values)`) and sorts only the copy, so the
pair (caller's sequence after the call, returned value) is as below. -/
def percentileProc (values : List ℚ) (pct : ℚ) : List ℚ × Option ℚ :=
  (values, percentile values pct)

/-- The caller-visible effect of `mean`: copies the input
(`vals = list(values)`), never writes to the caller's sequence. -/
def meanProc (values : List ℚ) : List ℚ × ℚ :=
  (values, mean values)

theorem pyGet_pos {l : List ℚ} {i : ℤ} (h0 : 0 ≤ i) (h1 : i < (l.length : ℤ)) :
    ∃ hi : i.toNat < l.length, pyGet l i = some (l.get ⟨i.toNat, hi⟩) := by
  have hi : i.toNat < l.length := by omega
  refine ⟨hi, ?_⟩
  rw [pyGet, if_pos h0, List.get?_eq_getElem?, List.getElem?_eq_getElem hi]
  simp

theorem percentile_eq_percentileRef (values : List ℚ) (pct : ℚ)
    (hne : values ≠ []) (hp0 : 0 ≤ pct) (hp1 : pct ≤ 100) :
    percentile values pct = percentileRef values pct := by
  have hlen : (values.insertionSort (· ≤ ·)).length = values.length :=
    List.length_insertionSort _ _
  have hL0 : (values.insertionSort (· ≤ ·)).length ≠ 0 := by
    rw [hlen]
    simpa using hne
  rw [percentile, percentileRef]
  simp only [if_neg hL0]
  set L := values.insertionSort (· ≤ ·) with hLdef
  set k : ℚ := (((L.length : ℤ) : ℚ) - 1) * (pct / 100) with hkdef
  have hn1 : 1 ≤ (L.length : ℤ) := by omega
  have hk0 : 0 ≤ k := by
    apply mul_nonneg
    · have : (1 : ℚ) ≤ ((L.length : ℤ) : ℚ) := by exact_mod_cast hn1
      linarith
    · linarith
  have hk1 : k ≤ ((L.length : ℤ) : ℚ) - 1 := by
    have hbase : (0 : ℚ) ≤ ((L.length : ℤ) : ℚ) - 1 := by
      have : (1 : ℚ) ≤ ((L.length : ℤ) : ℚ) := by exact_mod_cast hn1
      linarith
    have hfrac : pct / 100 ≤ 1 := by linarith
    calc k = (((L.length : ℤ) : ℚ) - 1) * (pct / 100) := hkdef
    _ ≤ (((L.length : ℤ) : ℚ) - 1) * 1 := by
        exact mul_le_mul_of_nonneg_left hfrac hbase
    _ = ((L.length : ℤ) : ℚ) - 1 := by ring
  rw [pyInt_of_nonneg hk0]
  have hf0 : 0 ≤ ⌊k⌋ := Int.le_floor.mpr (by exact_mod_cast hk0)
  have hf1 : ⌊k⌋ ≤ (L.length : ℤ) - 1 := by
    have h := le_trans (Int.floor_le k) hk1
    exact_mod_cast h
  obtain ⟨hfi, hvf⟩ := pyGet_pos hf0 (by omega : ⌊k⌋ < (L.length : ℤ))
  by_cases hceq : ⌈k⌉ = ⌊k⌋
  · -- `k` is an integer: both sides reduce to the order statistic at `⌊k⌋`
    have hkint : k = (⌊k⌋ : ℚ) := by
      have h1 : k ≤ (⌈k⌉ : ℚ) := Int.le_ceil k
      have h2 : (⌈k⌉ : ℚ) = (⌊k⌋ : ℚ) := by exact_mod_cast congrArg (fun z : ℤ => (z : ℚ)) hceq
      exact le_antisymm (by linarith [Int.floor_le k]) (Int.floor_le k)
    rw [hceq, hvf]
    simp only [Option.bind_eq_bind, Option.some_bind]
    by_cases htop : ⌊k⌋ = (L.length : ℤ) - 1
    · have hc : min (⌊k⌋ + 1) ((L.length : ℤ) - 1) = ⌊k⌋ := by omega
      rw [hc, if_pos rfl]
      simp [sub_self, mul_zero, add_zero]
    · have hc : min (⌊k⌋ + 1) ((L.length : ℤ) - 1) = ⌊k⌋ + 1 := by omega
      rw [hc, if_neg (by omega)]
      obtain ⟨hci, hvc⟩ := pyGet_pos (by omega : (0:ℤ) ≤ ⌊k⌋ + 1)
        (by omega : ⌊k⌋ + 1 < (L.length : ℤ))
      rw [hvc]
      simp only [Option.bind_eq_bind, Option.some_bind, Option.some.injEq]
      have hk' : k - (⌊k⌋ : ℚ) = 0 := by linarith [hkint]
      push_cast
      linear_combination (L.get ⟨(⌊k⌋ + 1).toNat, hci⟩ - L.get ⟨⌊k⌋.toNat, hfi⟩) * hk'
  · -- `k` is strictly between `⌊k⌋` and `⌈k⌉ = ⌊k⌋ + 1`
    have hceil : ⌈k⌉ = ⌊k⌋ + 1 := by
      have h1 := Int.floor_le_ceil k
      have h2 := Int.ceil_le_floor_add_one k
      omega
    have hktop : k ≠ ((L.length : ℤ) : ℚ) - 1 := by
      intro habs
      apply hceq
      have h2 : k = (((L.length : ℤ) - 1 : ℤ) : ℚ) := by push_cast at habs ⊢; linarith
      rw [h2, Int.ceil_intCast, Int.floor_intCast]
    have hklt : k < ((L.length : ℤ) : ℚ) - 1 := lt_of_le_of_ne hk1 hktop
    have hflt : ⌊k⌋ < (L.length : ℤ) - 1 := by
      by_contra habs
      have hfe : ⌊k⌋ = (L.length : ℤ) - 1 := by omega
      have hle : (((L.length : ℤ) - 1 : ℤ) : ℚ) ≤ k := by
        rw [← hfe]; exact Int.floor_le k
      push_cast at hle hklt
      linarith
    have hc : min (⌊k⌋ + 1) ((L.length : ℤ) - 1) = ⌊k⌋ + 1 := by omega
    rw [hc, if_neg (by omega), hvf, hceil]
    obtain ⟨hci, hvc⟩ := pyGet_pos (by omega : (0:ℤ) ≤ ⌊k⌋ + 1)
      (by omega : ⌊k⌋ + 1 < (L.length : ℤ))
    rw [hvc]
    simp only [Option.bind_eq_bind, Option.some_bind, Option.some.injEq]
    push_cast
    ring

/-- C5: `percentile(values, pct)` returns 0.0 for empty input; for every non-empty
input (and percentile rank between 0 and 100) it equals the linear-interpolation
reference: sort the sample, compute rank `k = (n-1)*pct/100`, and linearly
interpolate between the order statistics at `⌊k⌋` and `⌈k⌉`; in particular
`percentile([1,2,3,4], 50) = 2.5`, and `mean([]) = 0.0`. -/
theorem C5_percentile_functional_correctness :
    (∀ values : List ℚ, ∀ pct : ℚ, values ≠ [] → 0 ≤ pct → pct ≤ 100 →
      percentile values pct = percentileRef values pct)
    ∧ (∀ pct : ℚ, percentile [] pct = some 0)
    ∧ percentile [1, 2, 3, 4] 50 = some (5 / 2)
    ∧ mean [] = 0 := by
  refine ⟨percentile_eq_percentileRef, fun _ => rfl, ?_, rfl⟩
  have hs : ([1, 2, 3, 4] : List ℚ).insertionSort (· ≤ ·) = [1, 2, 3, 4] := by decide
  rw [percentile, hs]
  have h1 : pyGet [1, 2, 3, 4] 1 = some 2 := by decide
  have h2 : pyGet [1, 2, 3, 4] 2 = some 3 := by decide
  norm_num [pyInt, h1, h2]

/-- Witness for C5: the percentile/reference agreement applied at
`values = [1,2,3,4]`, `pct = 50`. -/
theorem C5_percentile_functional_correctness_witness :
    (([1, 2, 3, 4] : List ℚ) ≠ [] ∧ (0 : ℚ) ≤ 50 ∧ (50 : ℚ) ≤ 100)
    ∧ percentile [1, 2, 3, 4] 50 = percentileRef [1, 2, 3, 4] 50 :=
  ⟨⟨by decide, by decide, by decide⟩,
   C5_percentile_functional_correctness.1 [1, 2, 3, 4] 50 (by decide) (by decide)
     (by decide)⟩

/-- C10: `percentile` and `mean` never mutate their input: the sequence the
caller observes after the call is element-for-element the one passed in (both
functions copy the input with `list(values)`; `percentile` sorts only the
private copy). -/
theorem C10_statistics_no_input_mutation :
    ∀ values : List ℚ, ∀ pct : ℚ,
      (percentileProc values pct).1 = values ∧ (meanProc values).1 = values :=
  fun _ _ => ⟨rfl, rfl⟩

/-! ## `backends.py` — `spawn_many`

The three adapters are modelled against an arbitrary completion order
`completions`: the list of task indices in the order the spawned units actually
finish. Each unit `i` computes `fn i`. -/

section SpawnMany

variable {α : Type}

/-- `AsyncioBackend.spawn_many`: `tasks = [asyncio.create_task(fn(i)) for i in
range(count)]; await asyncio.gather(*tasks)`. Completion produces events
`(i, fn i)` in completion order; `gather` returns the outcome of task `i` at
position `i` of its result list, regardless of that order. -/
def asyncioSpawnMany (count : Nat) (fn : Nat → α) (completions : List Nat) :
    List (Option α) :=
  let events := completions.map fun i => (i, fn i)
  (List.range count).map fun i => events.lookup i

/-- `TrioBackend.spawn_many`: `results = [None] * count`; each spawned
`runner(idx)` performs `results[idx] = await fn(idx)` when it completes; the
nursery joins all units and the filled list is returned. -/
def trioSpawnMany (count : Nat) (fn : Nat → α) (completions : List Nat) :
    List (Option α) :=
  completions.foldl (fun results i => results.set i (some (fn i)))
    (List.replicate count none)

/-- `AnyioBackend.spawn_many`: same slot-writing pattern as the trio adapter,
with an anyio task group as the join point. -/
def anyioSpawnMany (count : Nat) (fn : Nat → α) (completions : List Nat) :
    List (Option α) :=
  completions.foldl (fun results i => results.set i (some (fn i)))
    (List.replicate count none)

theorem lookup_map_pair (fn : Nat → α) :
    ∀ (cs : List Nat) (i : Nat), i ∈ cs →
      (cs.map fun j => (j, fn j)).lookup i = some (fn i) := by
  intro cs
  induction cs with
  | nil => intro i hi; cases hi
  | cons j rest ih =>
    intro i hi
    by_cases hij : i = j
    · subst hij
      simp [List.lookup]
    · have hmem : i ∈ rest := by
        rcases List.mem_cons.mp hi with h | h
        · exact absurd h hij
        · exact h
      have hbeq : (i == j) = false := by simp [hij]
      simp only [List.map_cons, List.lookup, hbeq]
      exact ih i hmem

theorem foldl_set_length (fn : Nat → α) :
    ∀ (cs : List Nat) (init : List (Option α)),
      (cs.foldl (fun rs j => rs.set j (some (fn j))) init).length = init.length := by
  intro cs
  induction cs with
  | nil => intro init; rfl
  | cons j rest ih =>
    intro init
    rw [List.foldl_cons, ih, List.length_set]

theorem foldl_set_not_mem (fn : Nat → α) :
    ∀ (cs : List Nat) (init : List (Option α)) (i : Nat), i ∉ cs →
      (cs.foldl (fun rs j => rs.set j (some (fn j))) init).get? i = init.get? i := by
  intro cs
  induction cs with
  | nil => intro init i _; rfl
  | cons j rest ih =>
    intro init i hi
    have hne : j ≠ i := by
      intro h
      subst h
      exact hi (List.mem_cons_self _ _)
    rw [List.foldl_cons, ih _ _ (fun h => hi (List.mem_cons_of_mem _ h)),
      List.get?_eq_getElem?, List.get?_eq_getElem?, List.getElem?_set_ne hne]

theorem foldl_set_mem (fn : Nat → α) :
    ∀ (cs : List Nat) (init : List (Option α)) (i : Nat), i ∈ cs → i < init.length →
      (cs.foldl (fun rs j => rs.set j (some (fn j))) init).get? i = some (some (fn i)) := by
  intro cs
  induction cs with
  | nil => intro init i hi; cases hi
  | cons j rest ih =>
    intro init i hi hlen
    rw [List.foldl_cons]
    by_cases hmem : i ∈ rest
    · exact ih _ i hmem (by rw [List.length_set]; exact hlen)
    · have hij : i = j := by
        rcases List.mem_cons.mp hi with h | h
        · exact h
        · exact absurd h hmem
      subst hij
      rw [foldl_set_not_mem fn rest _ i hmem, List.get?_eq_getElem?,
        List.getElem?_set_self]
      simp [hlen]

theorem slot_spawn_many_eq (fn : Nat → α) (count : Nat) (completions : List Nat)
    (hperm : completions.Perm (List.range count)) :
    completions.foldl (fun rs j => rs.set j (some (fn j)))
        (List.replicate count none)
      = (List.range count).map fun i => some (fn i) := by
  apply List.ext_get?
  intro i
  by_cases hlt : i < count
  · have hmem : i ∈ completions := hperm.mem_iff.mpr (List.mem_range.mpr hlt)
    rw [foldl_set_mem fn _ _ i hmem (by rw [List.length_replicate]; exact hlt)]
    rw [List.get?_eq_getElem?, List.getElem?_map, List.getElem?_range hlt]
    rfl
  · have h1 : (completions.foldl (fun rs j => rs.set j (some (fn j)))
        (List.replicate count none)).get? i = none := by
      apply List.get?_eq_none.mpr
      rw [foldl_set_length, List.length_replicate]
      omega
    have h2 : ((List.range count).map fun i => some (fn i)).get? i = none := by
      apply List.get?_eq_none.mpr
      rw [List.length_map, List.length_range]
      omega
    rw [h1, h2]

/-- C1: for every backend and every `count ≥ 0`, `spawn_many(count, fn)` returns a
sequence of exactly `count` results whose element at position `i` is the outcome
of `fn(i)`, for any order in which the spawned units complete. -/
theorem C1_spawn_many_positional (count : Nat) (fn : Nat → α)
    (completions : List Nat) (hperm : completions.Perm (List.range count)) :
    asyncioSpawnMany count fn completions
        = ((List.range count).map fun i => some (fn i))
      ∧ trioSpawnMany count fn completions
        = ((List.range count).map fun i => some (fn i))
      ∧ anyioSpawnMany count fn completions
        = ((List.range count).map fun i => some (fn i)) := by
  refine ⟨?_, ?_, ?_⟩
  · unfold asyncioSpawnMany
    apply List.map_congr_left
    intro i hi
    exact lookup_map_pair fn completions i
      (hperm.mem_iff.mpr hi)
  · exact slot_spawn_many_eq fn count completions hperm
  · exact slot_spawn_many_eq fn count completions hperm

/-- Witness for C1: two units completing in reverse launch order still produce
results by launch index. -/
theorem C1_spawn_many_positional_witness :
    ([1, 0] : List Nat).Perm (List.range 2)
      ∧ asyncioSpawnMany 2 (fun i => i + 10) [1, 0] = [some 10, some 11]
      ∧ trioSpawnMany 2 (fun i => i + 10) [1, 0] = [some 10, some 11]
      ∧ anyioSpawnMany 2 (fun i => i + 10) [1, 0] = [some 10, some 11] := by
  have hperm : ([1, 0] : List Nat).Perm (List.range 2) := by decide
  obtain ⟨h1, h2, h3⟩ := C1_spawn_many_positional 2 (fun i => i + 10) [1, 0] hperm
  exact ⟨hperm, by rw [h1]; decide, by rw [h2]; decide, by rw [h3]; decide⟩

end SpawnMany

/-! ## `backends.py` — error propagation inside `spawn_many`

The error behaviour of `spawn_many` is decided by library primitives that are
not part of this repository (`asyncio.gather`, `trio.open_nursery`,
`anyio.create_task_group`); they are modelled from the spec (§4.1 and the §9
design note on the source inconsistency). Each unit `i < count` reaches its own
exit after `dur i` scheduler steps with outcome `out i`. -/

section ErrorPolicy

variable {ε α : Type}

/-- How a spawned unit ends: it ran to its own completion (value or error), or
it was torn down by a cancellation injected from outside before completing. -/
inductive TaskExit (ε α : Type) where
  | finished (out : Except ε α)
  | cancelled

instance [DecidableEq ε] [DecidableEq α] : DecidableEq (Except ε α)
  | .error a, .error b =>
    if h : a = b then isTrue (by rw [h]) else isFalse (by intro hh; cases hh; exact h rfl)
  | .error _, .ok _ => isFalse (by intro h; cases h)
  | .ok _, .error _ => isFalse (by intro h; cases h)
  | .ok a, .ok b =>
    if h : a = b then isTrue (by rw [h]) else isFalse (by intro hh; cases hh; exact h rfl)

instance [DecidableEq ε] [DecidableEq α] : DecidableEq (TaskExit ε α)
  | .cancelled, .cancelled => isTrue rfl
  | .cancelled, .finished _ => isFalse (by intro h; cases h)
  | .finished _, .cancelled => isFalse (by intro h; cases h)
  | .finished a, .finished b =>
    if h : a = b then isTrue (by rw [h]) else isFalse (by intro hh; cases hh; exact h rfl)

/-- Observable behaviour of one `spawn_many` call: when the call returns to its
caller, when each spawned unit exits, and how. -/
structure SpawnManyRun (ε α : Type) where
  returnTime : Nat
  exitTime : Nat → Nat
  exitKind : Nat → TaskExit ε α

def isErr : Except ε α → Bool
  | .error _ => true
  | .ok _ => false

def listMax (l : List Nat) : Nat := l.foldr max 0

def listMin : List Nat → Nat
  | [] => 0
  | x :: xs => xs.foldr min x

theorem le_listMax {l : List Nat} {x : Nat} (h : x ∈ l) : x ≤ listMax l := by
  induction l with
  | nil => cases h
  | cons y ys ih =>
    rcases List.mem_cons.mp h with rfl | hmem
    · simp [listMax]
    · simp only [listMax, List.foldr_cons]
      exact le_trans (ih hmem) (le_max_right _ _)

/-- Modelled from the spec: `asyncio.gather(*tasks)` without
`return_exceptions` (library code not under `src/`; spec §9: one adapter
"propagates the first failure" without waiting). With no failing unit the call
returns when the last unit finishes; with a failing unit it returns as soon as
the first failure occurs. The spawned tasks are neither cancelled nor awaited
further: each still exits with its own outcome at its own time. -/
def asyncioGatherRun (count : Nat) (dur : Nat → Nat) (out : Nat → Except ε α) :
    SpawnManyRun ε α :=
  let errs := (List.range count).filter fun i => isErr (out i)
  { returnTime :=
      if errs.isEmpty then listMax ((List.range count).map dur)
      else listMin (errs.map dur)
    exitTime := dur
    exitKind := fun i => .finished (out i) }

/-- Modelled from the spec: a `trio.open_nursery` block (library code not under
`src/`; spec §9: the nursery "propagates the first failure while cancelling
siblings"). On the first child failure (step `t`) every other child is
cancelled and exits at its next suspension point (modelled as `t`); the nursery
always waits for every child to exit before re-raising. -/
def trioNurseryRun (count : Nat) (dur : Nat → Nat) (out : Nat → Except ε α) :
    SpawnManyRun ε α :=
  let errs := (List.range count).filter fun i => isErr (out i)
  if errs.isEmpty then
    { returnTime := listMax ((List.range count).map dur)
      exitTime := dur
      exitKind := fun i => .finished (out i) }
  else
    let t := listMin (errs.map dur)
    { returnTime := listMax ((List.range count).map fun i => min (dur i) t)
      exitTime := fun i => min (dur i) t
      exitKind := fun i => if dur i ≤ t then .finished (out i) else .cancelled }

/-- Modelled from the spec: an `anyio.create_task_group` block (library code
not under `src/`), whose cancel-scope semantics mirror the trio nursery: first
failure cancels the whole scope, the group waits for every child to exit. -/
def anyioTaskGroupRun (count : Nat) (dur : Nat → Nat) (out : Nat → Except ε α) :
    SpawnManyRun ε α :=
  let errs := (List.range count).filter fun i => isErr (out i)
  if errs.isEmpty then
    { returnTime := listMax ((List.range count).map dur)
      exitTime := dur
      exitKind := fun i => .finished (out i) }
  else
    let t := listMin (errs.map dur)
    { returnTime := listMax ((List.range count).map fun i => min (dur i) t)
      exitTime := fun i => min (dur i) t
      exitKind := fun i => if dur i ≤ t then .finished (out i) else .cancelled }

/-- The policy the claim asserts for every backend: the call returns only after
every spawned unit has exited (no dangling unit), and no sibling unit is torn
down early by an injected cancellation. -/
def spawnManyPolicy (count : Nat) (r : SpawnManyRun ε α) : Prop :=
  (∀ i, i < count → r.exitTime i ≤ r.returnTime)
    ∧ ∀ i, i < count → r.exitKind i ≠ .cancelled

theorem nurseryWaitsForAll (count : Nat) (dur : Nat → Nat)
    (out : Nat → Except ε α) :
    ∀ i, i < count → (trioNurseryRun count dur out).exitTime i
      ≤ (trioNurseryRun count dur out).returnTime := by
  intro i hi
  unfold trioNurseryRun
  by_cases he : ((List.range count).filter fun i => isErr (out i)).isEmpty
  · simp only [he, if_pos]
    exact le_listMax (List.mem_map_of_mem dur (List.mem_range.mpr hi))
  · simp only [he, if_neg, Bool.false_eq_true, not_false_iff]
    exact le_listMax (List.mem_map_of_mem _ (List.mem_range.mpr hi))

/-- C2 counterexample: with unit 0 failing immediately and unit 1 due to finish
at step 5, the asyncio adapter's gather returns at step 0 while unit 1 is still
running, so the "wait for all siblings, no early teardown" policy fails for at
least one backend. -/
theorem C2_same_policy_counterexample :
    ¬ (spawnManyPolicy 2 (asyncioGatherRun 2 (fun i => if i = 0 then 0 else 5)
          (fun i => if i = 0 then Except.error () else Except.ok i))
        ∧ spawnManyPolicy 2 (trioNurseryRun 2 (fun i => if i = 0 then 0 else 5)
          (fun i => if i = 0 then Except.error () else Except.ok i))
        ∧ spawnManyPolicy 2 (anyioTaskGroupRun 2 (fun i => if i = 0 then 0 else 5)
          (fun i => if i = 0 then Except.error () else Except.ok i))) := by
  intro h
  have h1 := h.1.1 1 (by omega)
  revert h1
  decide

/-- C2 amended: the three adapters do not share one error-propagation policy.
The asyncio adapter never tears a sibling down but may return before siblings
finish when a unit fails (units left dangling); the trio and anyio adapters
always wait for every unit to exit before surfacing, but cancel still-running
siblings (early teardown). -/
theorem C2_error_policy_amended (count : Nat) (dur : Nat → Nat)
    (out : Nat → Except Unit Nat) :
    (∀ i, i < count →
        (asyncioGatherRun count dur out).exitKind i = .finished (out i))
      ∧ (∀ i, i < count → (trioNurseryRun count dur out).exitTime i
          ≤ (trioNurseryRun count dur out).returnTime)
      ∧ (∀ i, i < count → (anyioTaskGroupRun count dur out).exitTime i
          ≤ (anyioTaskGroupRun count dur out).returnTime)
      ∧ (asyncioGatherRun 2 (fun i => if i = 0 then 0 else 5)
          (fun i => if i = 0 then Except.error () else Except.ok i)).returnTime
        < (asyncioGatherRun 2 (fun i => if i = 0 then 0 else 5)
          (fun i => if i = 0 then Except.error () else Except.ok i)).exitTime 1
      ∧ (trioNurseryRun 2 (fun i => if i = 0 then 0 else 5)
          (fun i => if i = 0 then Except.error () else Except.ok i)).exitKind 1
        = .cancelled
      ∧ (anyioTaskGroupRun 2 (fun i => if i = 0 then 0 else 5)
          (fun i => if i = 0 then Except.error () else Except.ok i)).exitKind 1
        = .cancelled := by
  refine ⟨fun i _ => rfl, nurseryWaitsForAll count dur out, ?_, by decide, by decide,
    by decide⟩
  intro i hi
  unfold anyioTaskGroupRun
  by_cases he : ((List.range count).filter fun i => isErr (out i)).isEmpty
  · simp only [he, if_pos]
    exact le_listMax (List.mem_map_of_mem dur (List.mem_range.mpr hi))
  · simp only [he, if_neg, Bool.false_eq_true, not_false_iff]
    exact le_listMax (List.mem_map_of_mem _ (List.mem_range.mpr hi))

/-- Witness for the C2 amended theorem at `count = 1`, trivial durations. -/
theorem C2_error_policy_amended_witness :
    (0 < 1
      ∧ (asyncioGatherRun 1 (fun _ => 0)
          (fun _ => (Except.ok 0 : Except Unit Nat))).exitKind 0
        = .finished (Except.ok 0))
      ∧ (trioNurseryRun 1 (fun _ => 0)
          (fun _ => (Except.ok 0 : Except Unit Nat))).exitTime 0
        ≤ (trioNurseryRun 1 (fun _ => 0)
          (fun _ => (Except.ok 0 : Except Unit Nat))).returnTime :=
  ⟨⟨by decide,
    (C2_error_policy_amended 1 (fun _ => 0) (fun _ => Except.ok 0)).1 0 (by decide)⟩,
   (C2_error_policy_amended 1 (fun _ => 0) (fun _ => Except.ok 0)).2.1 0 (by decide)⟩

end ErrorPolicy

/-! ## `backends.py` — `cancellation_storm` event traces (C3)

The storm bodies are straight-line coroutine code; under the cooperative
scheduling model of spec §5 a unit can only run at a suspension point of the
storm coroutine. Each adapter's storm is embedded as its trace of events. -/

section StormTrace

/-- One event of a `cancellation_storm` execution, as seen from the storm
coroutine: spawning unit `i`, suspending at an `await` (the only points where
spawned units may run), delivering the cancellation signal to unit `i`
(`task.cancel()` / `scope.cancel()`), cancelling the one shared anyio scope
(`tg.cancel_scope.cancel()`), and awaiting settlement of all units. -/
inductive StormEvent where
  | spawn (i : Nat)
  | suspend
  | cancelSignal (i : Nat)
  | cancelScope
  | drain
  deriving DecidableEq

def isSpawnEvent : StormEvent → Bool
  | .spawn _ => true
  | _ => false

def isCancelEvent : StormEvent → Bool
  | .cancelSignal _ => true
  | .cancelScope => true
  | _ => false

/-- `AsyncioBackend.cancellation_storm`: create all tasks, `await
asyncio.sleep(cancel_after)`, run the cancel loop `for task in tasks:
task.cancel()` (no `await` inside), then `await asyncio.gather(...)`. -/
def asyncioStormTrace (taskCount : Nat) : List StormEvent :=
  ((List.range taskCount).map .spawn) ++ [.suspend]
    ++ ((List.range taskCount).map .cancelSignal) ++ [.drain]

/-- `TrioBackend.cancellation_storm`: start all units in the nursery, `await
trio.sleep(cancel_after)`, run `for scope in scopes: scope.cancel()` (no
`await` inside), then leave the nursery block (join). -/
def trioStormTrace (taskCount : Nat) : List StormEvent :=
  ((List.range taskCount).map .spawn) ++ [.suspend]
    ++ ((List.range taskCount).map .cancelSignal) ++ [.drain]

/-- `AnyioBackend.cancellation_storm`: start all units in the task group,
`await anyio.sleep(cancel_after)`, then the single call
`tg.cancel_scope.cancel()` on the scope shared by all units, then leave the
task group block (join). -/
def anyioStormTrace (taskCount : Nat) : List StormEvent :=
  ((List.range taskCount).map .spawn) ++ [.suspend]
    ++ [.cancelScope] ++ [.drain]

/-- A trace issues the cancellation signal atomically: the cancel events form
one contiguous block with nothing else — in particular no suspension point at
which a unit could run — between them. -/
def atomicCancelBlock (t : List StormEvent) (block : List StormEvent) : Prop :=
  (∃ pre post, t = pre ++ block ++ post
      ∧ (∀ e ∈ pre, isCancelEvent e = false)
      ∧ (∀ e ∈ post, isCancelEvent e = false))
    ∧ ∀ e ∈ block, isCancelEvent e = true

/-- No unit is launched after the cancellation signal has been issued: in the
trace, no spawn event follows any cancel event. -/
def noSpawnAfterCancel (t : List StormEvent) : Prop :=
  t.Pairwise fun a b => isCancelEvent a = true → isSpawnEvent b = false

theorem count_cancelSignal_map_range (n i : Nat) (hi : i < n) :
    ((List.range n).map StormEvent.cancelSignal).count (.cancelSignal i) = 1 := by
  apply List.count_eq_one_of_mem
  · exact (List.nodup_range n).map fun a b h => by cases h; rfl
  · exact List.mem_map_of_mem _ (List.mem_range.mpr hi)

theorem count_append3 (a b c d : List StormEvent) (e : StormEvent) :
    (a ++ b ++ c ++ d).count e = a.count e + b.count e + c.count e + d.count e := by
  rw [List.count_append, List.count_append, List.count_append]

theorem count_nonspawn_in_spawns (n : Nat) (e : StormEvent)
    (he : isSpawnEvent e = false) :
    ((List.range n).map StormEvent.spawn).count e = 0 := by
  apply List.count_eq_zero.mpr
  intro hmem
  obtain ⟨j, _, hj⟩ := List.mem_map.mp hmem
  rw [← hj] at he
  simp [isSpawnEvent] at he

theorem pairwise_of_mem_rel {α : Type} {R : α → α → Prop} :
    ∀ l : List α, (∀ a ∈ l, ∀ b ∈ l, R a b) → l.Pairwise R := by
  intro l
  induction l with
  | nil => intro _; exact List.Pairwise.nil
  | cons x xs ih =>
    intro h
    refine List.Pairwise.cons ?_ (ih ?_)
    · intro b hb
      exact h x (List.mem_cons_self _ _) b (List.mem_cons_of_mem _ hb)
    · intro a ha b hb
      exact h a (List.mem_cons_of_mem _ ha) b (List.mem_cons_of_mem _ hb)

theorem noSpawnAfterCancel_split (l₁ l₂ : List StormEvent)
    (h1 : ∀ e ∈ l₁, isCancelEvent e = false)
    (h2 : ∀ e ∈ l₂, isSpawnEvent e = false) :
    noSpawnAfterCancel (l₁ ++ l₂) := by
  unfold noSpawnAfterCancel
  rw [List.pairwise_append]
  refine ⟨pairwise_of_mem_rel _ ?_, pairwise_of_mem_rel _ ?_, ?_⟩
  · intro a ha b _ hc
    rw [h1 a ha] at hc
    cases hc
  · intro a _ b hb _
    exact h2 b hb
  · intro a _ b hb _
    exact h2 b hb

theorem storm_no_spawn_after_cancel (n : Nat) (rest : List StormEvent)
    (hrest : ∀ e ∈ rest, isSpawnEvent e = false) :
    noSpawnAfterCancel (((List.range n).map StormEvent.spawn) ++ rest) :=
  noSpawnAfterCancel_split _ _
    (fun e he => by
      obtain ⟨j, _, hj⟩ := List.mem_map.mp he
      rw [← hj]
      rfl)
    hrest

theorem storm_atomic (n : Nat) (block : List StormEvent)
    (hblock : ∀ e ∈ block, isCancelEvent e = true) :
    atomicCancelBlock (((List.range n).map StormEvent.spawn) ++ [.suspend]
      ++ block ++ [.drain]) block := by
  refine ⟨⟨((List.range n).map StormEvent.spawn) ++ [.suspend], [.drain], ?_, ?_, ?_⟩,
    hblock⟩
  · simp [List.append_assoc]
  · intro e he
    rcases List.mem_append.mp he with h | h
    · obtain ⟨j, _, hj⟩ := List.mem_map.mp h
      rw [← hj]
      rfl
    · rw [List.mem_singleton.mp h]
      rfl
  · intro e he
    rw [List.mem_singleton.mp he]
    rfl

/-- C3: in every backend's `cancellation_storm`, the cancellation signal is
issued exactly once and atomically with respect to the spawned units: each of
the `n` units receives exactly one per-unit cancel call (asyncio, trio), resp.
the one shared scope is cancelled exactly once (anyio); the cancel events form
a contiguous block containing no suspension point; and no unit is spawned
after any cancel event. -/
theorem C3_storm_cancel_once_atomic (n i : Nat) (hi : i < n) :
    ((asyncioStormTrace n).count (.cancelSignal i) = 1
      ∧ (trioStormTrace n).count (.cancelSignal i) = 1
      ∧ (anyioStormTrace n).count .cancelScope = 1)
    ∧ (noSpawnAfterCancel (asyncioStormTrace n)
      ∧ noSpawnAfterCancel (trioStormTrace n)
      ∧ noSpawnAfterCancel (anyioStormTrace n))
    ∧ (atomicCancelBlock (asyncioStormTrace n)
        ((List.range n).map StormEvent.cancelSignal)
      ∧ atomicCancelBlock (trioStormTrace n)
        ((List.range n).map StormEvent.cancelSignal)
      ∧ atomicCancelBlock (anyioStormTrace n) [.cancelScope]) := by
  have hcount : ((List.range n).map StormEvent.spawn ++ [StormEvent.suspend]
      ++ (List.range n).map StormEvent.cancelSignal
      ++ [StormEvent.drain]).count (.cancelSignal i) = 1 := by
    rw [count_append3, count_nonspawn_in_spawns n (.cancelSignal i) rfl,
      count_cancelSignal_map_range n i hi]
    rfl
  have hrest1 : ∀ e ∈ ([StormEvent.suspend]
      ++ (List.range n).map StormEvent.cancelSignal ++ [StormEvent.drain]),
      isSpawnEvent e = false := by
    intro e he
    rcases List.mem_append.mp he with h | h
    · rcases List.mem_append.mp h with h2 | h2
      · rw [List.mem_singleton.mp h2]
        rfl
      · obtain ⟨j, _, hj⟩ := List.mem_map.mp h2
        rw [← hj]
        rfl
    · rw [List.mem_singleton.mp h]
      rfl
  have hrest2 : ∀ e ∈ ([StormEvent.suspend] ++ [StormEvent.cancelScope]
      ++ [StormEvent.drain]), isSpawnEvent e = false := by
    intro e he
    rcases List.mem_append.mp he with h | h
    · rcases List.mem_append.mp h with h2 | h2
      · rw [List.mem_singleton.mp h2]
        rfl
      · rw [List.mem_singleton.mp h2]
        rfl
    · rw [List.mem_singleton.mp h]
      rfl
  have hshape1 : asyncioStormTrace n = ((List.range n).map StormEvent.spawn)
      ++ ([StormEvent.suspend] ++ (List.range n).map StormEvent.cancelSignal
        ++ [StormEvent.drain]) := by
    simp [asyncioStormTrace, List.append_assoc]
  have hshape2 : trioStormTrace n = ((List.range n).map StormEvent.spawn)
      ++ ([StormEvent.suspend] ++ (List.range n).map StormEvent.cancelSignal
        ++ [StormEvent.drain]) := by
    simp [trioStormTrace, List.append_assoc]
  have hshape3 : anyioStormTrace n = ((List.range n).map StormEvent.spawn)
      ++ ([StormEvent.suspend] ++ [StormEvent.cancelScope]
        ++ [StormEvent.drain]) := by
    simp [anyioStormTrace, List.append_assoc]
  have hblock1 : ∀ e ∈ (List.range n).map StormEvent.cancelSignal,
      isCancelEvent e = true := by
    intro e he
    obtain ⟨j, _, hj⟩ := List.mem_map.mp he
    rw [← hj]
    rfl
  have hblock2 : ∀ e ∈ [StormEvent.cancelScope], isCancelEvent e = true := by
    intro e he
    rw [List.mem_singleton.mp he]
    rfl
  refine ⟨⟨hcount, hcount, ?_⟩, ?_, ?_⟩
  · rw [anyioStormTrace, count_append3,
      count_nonspawn_in_spawns n StormEvent.cancelScope rfl]
    rfl
  · refine ⟨?_, ?_, ?_⟩
    · rw [hshape1]
      exact storm_no_spawn_after_cancel n _ hrest1
    · rw [hshape2]
      exact storm_no_spawn_after_cancel n _ hrest1
    · rw [hshape3]
      exact storm_no_spawn_after_cancel n _ hrest2
  · exact ⟨storm_atomic n ((List.range n).map StormEvent.cancelSignal) hblock1,
      storm_atomic n ((List.range n).map StormEvent.cancelSignal) hblock1,
      storm_atomic n [StormEvent.cancelScope] hblock2⟩

/-- Witness for C3 at `n = 3`, `i = 1`. -/
theorem C3_storm_cancel_once_atomic_witness :
    (1 < 3) ∧ (asyncioStormTrace 3).count (.cancelSignal 1) = 1
      ∧ noSpawnAfterCancel (anyioStormTrace 3) :=
  ⟨by decide, (C3_storm_cancel_once_atomic 3 1 (by decide)).1.1,
   (C3_storm_cancel_once_atomic 3 1 (by decide)).2.1.2.2⟩

end StormTrace

/-! ## `backends.py` — `cancellation_storm` counters (C4)

Each unit of a storm settles in exactly one way; the adapters tally the exits
into the `cancelled` / `exceptions` counters. -/

section StormCounters

/-- How one storm unit settles, as classified by the adapters:
`asyncio.CancelledError` (resp. `trio.Cancelled` / the anyio cancelled
exception class), some other `Exception`, or a normal return value. -/
inductive UnitSettle where
  | cancelledError
  | exception
  | value
  deriving DecidableEq

/-- Result dictionary of a `cancellation_storm` call. -/
structure StormResult where
  cancelled : Nat
  exceptions : Nat
  settle_s : ℚ
  deriving DecidableEq

/-- `AsyncioBackend.cancellation_storm` tallying: `results = await
asyncio.gather(*tasks, return_exceptions=True)`, then `cancelled =
sum(isinstance(res, CancelledError))` and `other_errors = sum(1 for res if
isinstance(res, Exception) and not isinstance(res, CancelledError))`
(`CancelledError` derives `BaseException`, not `Exception`). `exits` lists each
unit's settlement; `settle` is the measured drain time. -/
def asyncioCancellationStorm (exits : List UnitSettle) (settle : ℚ) :
    StormResult :=
  { cancelled := exits.countP fun r => r = .cancelledError
    exceptions := exits.countP fun r => r = .exception
    settle_s := settle }

/-- `TrioBackend.cancellation_storm` tallying: each `runner` increments the
enclosing-scope `cancelled` counter when it exits via `trio.Cancelled` and
`other_errors` when it exits via another `Exception`; a normal return
increments nothing. `exits` lists the units' settlements in the order the
increments happen. -/
def trioCancellationStorm (exits : List UnitSettle) (settle : ℚ) :
    StormResult :=
  let counters := exits.foldl
    (fun (acc : Nat × Nat) r =>
      match r with
      | .cancelledError => (acc.1 + 1, acc.2)
      | .exception => (acc.1, acc.2 + 1)
      | .value => acc)
    (0, 0)
  { cancelled := counters.1, exceptions := counters.2, settle_s := settle }

/-- `AnyioBackend.cancellation_storm` tallying: same increment pattern as the
trio adapter, with `anyio.get_cancelled_exc_class()` as the cancellation
marker. -/
def anyioCancellationStorm (exits : List UnitSettle) (settle : ℚ) :
    StormResult :=
  let counters := exits.foldl
    (fun (acc : Nat × Nat) r =>
      match r with
      | .cancelledError => (acc.1 + 1, acc.2)
      | .exception => (acc.1, acc.2 + 1)
      | .value => acc)
    (0, 0)
  { cancelled := counters.1, exceptions := counters.2, settle_s := settle }

theorem storm_foldl_counters (exits : List UnitSettle) :
    ∀ acc : Nat × Nat,
      exits.foldl
        (fun (acc : Nat × Nat) r =>
          match r with
          | .cancelledError => (acc.1 + 1, acc.2)
          | .exception => (acc.1, acc.2 + 1)
          | .value => acc)
        acc
      = (acc.1 + exits.countP (fun r => r = .cancelledError),
         acc.2 + exits.countP (fun r => r = .exception)) := by
  induction exits with
  | nil => intro acc; simp
  | cons r rest ih =>
    intro acc
    rw [List.foldl_cons]
    cases r
    · rw [ih]
      simp [List.countP_cons]
      omega
    · rw [ih]
      simp [List.countP_cons]
      omega
    · rw [ih]
      simp [List.countP_cons]

theorem countP_cancel_add_exc_le (exits : List UnitSettle) :
    exits.countP (fun r => r = .cancelledError)
      + exits.countP (fun r => r = .exception) ≤ exits.length := by
  induction exits with
  | nil => simp
  | cons r rest ih =>
    cases r <;> simp [List.countP_cons] <;> omega

theorem countP_cancel_all (exits : List UnitSettle)
    (h : ∀ r ∈ exits, r = UnitSettle.cancelledError) :
    exits.countP (fun r => r = .cancelledError) = exits.length
      ∧ exits.countP (fun r => r = .exception) = 0 := by
  constructor
  · apply List.countP_eq_length.mpr
    intro r hr
    simp [h r hr]
  · apply List.countP_eq_zero.mpr
    intro r hr
    simp [h r hr]

/-- C4: for every backend, a `cancellation_storm` over `task_count` units whose
settlements are `exits` reports counters with `cancelled + exceptions ≤
task_count`; and if every unit can only exit via the cancellation signal, then
`cancelled = task_count` and `exceptions = 0`. -/
theorem C4_storm_counter_invariant (taskCount : Nat) (exits : List UnitSettle)
    (settle : ℚ) (hlen : exits.length = taskCount) :
    ((asyncioCancellationStorm exits settle).cancelled
        + (asyncioCancellationStorm exits settle).exceptions ≤ taskCount
      ∧ (trioCancellationStorm exits settle).cancelled
        + (trioCancellationStorm exits settle).exceptions ≤ taskCount
      ∧ (anyioCancellationStorm exits settle).cancelled
        + (anyioCancellationStorm exits settle).exceptions ≤ taskCount)
    ∧ ((∀ r ∈ exits, r = UnitSettle.cancelledError) →
      ((asyncioCancellationStorm exits settle).cancelled = taskCount
        ∧ (asyncioCancellationStorm exits settle).exceptions = 0
        ∧ (trioCancellationStorm exits settle).cancelled = taskCount
        ∧ (trioCancellationStorm exits settle).exceptions = 0
        ∧ (anyioCancellationStorm exits settle).cancelled = taskCount
        ∧ (anyioCancellationStorm exits settle).exceptions = 0)) := by
  have htrio : (trioCancellationStorm exits settle).cancelled
        = exits.countP (fun r => r = .cancelledError)
      ∧ (trioCancellationStorm exits settle).exceptions
        = exits.countP (fun r => r = .exception) := by
    unfold trioCancellationStorm
    rw [storm_foldl_counters exits (0, 0)]
    exact ⟨by simp, by simp⟩
  have hanyio : (anyioCancellationStorm exits settle).cancelled
        = exits.countP (fun r => r = .cancelledError)
      ∧ (anyioCancellationStorm exits settle).exceptions
        = exits.countP (fun r => r = .exception) := by
    unfold anyioCancellationStorm
    rw [storm_foldl_counters exits (0, 0)]
    exact ⟨by simp, by simp⟩
  have hle := countP_cancel_add_exc_le exits
  constructor
  · refine ⟨?_, ?_, ?_⟩
    · rw [← hlen]
      exact hle
    · rw [htrio.1, htrio.2, ← hlen]
      exact hle
    · rw [hanyio.1, hanyio.2, ← hlen]
      exact hle
  · intro hall
    obtain ⟨hc, he⟩ := countP_cancel_all exits hall
    refine ⟨?_, ?_, ?_, ?_, ?_, ?_⟩
    · rw [← hlen]
      exact hc
    · exact he
    · rw [htrio.1, ← hlen]
      exact hc
    · rw [htrio.2]
      exact he
    · rw [hanyio.1, ← hlen]
      exact hc
    · rw [hanyio.2]
      exact he

/-- Witness for C4: two units, both settling via the cancellation signal. -/
theorem C4_storm_counter_invariant_witness :
    ([UnitSettle.cancelledError, UnitSettle.cancelledError].length = 2
      ∧ (∀ r ∈ [UnitSettle.cancelledError, UnitSettle.cancelledError],
        r = UnitSettle.cancelledError))
    ∧ (asyncioCancellationStorm
        [UnitSettle.cancelledError, UnitSettle.cancelledError] 0).cancelled
      + (asyncioCancellationStorm
        [UnitSettle.cancelledError, UnitSettle.cancelledError] 0).exceptions ≤ 2
    ∧ (trioCancellationStorm
        [UnitSettle.cancelledError, UnitSettle.cancelledError] 0).cancelled = 2 :=
  ⟨⟨by decide, by decide⟩,
   (C4_storm_counter_invariant 2 _ 0 (by decide)).1.1,
   ((C4_storm_counter_invariant 2 _ 0 (by decide)).2 (by decide)).2.2.1⟩

end StormCounters

/-! ## `runner.py` — orchestrator (C6)

`main` iterates `for lib in libraries: for scenario in benchmarks: for rep in
range(repetitions)`, calls `run_benchmark`, then sets `rep` and `duration_s` on
the returned entry and appends it. `metricsOf`/`durOf` give the measured
outcome of each (library, scenario, repetition) execution. -/

section Orchestrator

variable {P M : Type}

/-- One entry of the persisted result document: the dict built by
`run_benchmark` (library, scenario, params snapshot, metrics) extended by
`main` with the 1-based repetition index and the wall-clock duration. -/
structure BenchEntry (P M : Type) where
  library : String
  scenario : String
  params : P
  metrics : M
  rep : Nat
  duration_s : ℚ

/-- The entry for repetition `rep` (0-based loop index, stored 1-based). -/
def runBenchmarkEntry (lib scen : String) (params : P) (metrics : M)
    (rep : Nat) (dur : ℚ) : BenchEntry P M :=
  { library := lib, scenario := scen, params := params, metrics := metrics
    rep := rep + 1, duration_s := dur }

/-- The sequence of entries produced by `main`'s triple loop. -/
def mainEntries (libraries benchmarks : List String) (repetitions : Nat)
    (params : String → P) (metricsOf : String → String → Nat → M)
    (durOf : String → String → Nat → ℚ) : List (BenchEntry P M) :=
  libraries.flatMap fun lib =>
    benchmarks.flatMap fun scen =>
      (List.range repetitions).map fun rep =>
        runBenchmarkEntry lib scen (params scen) (metricsOf lib scen rep) rep
          (durOf lib scen rep)

theorem length_bind_const {β γ : Type} (l : List β) (f : β → List γ) (k : Nat)
    (h : ∀ b ∈ l, (f b).length = k) : (l.flatMap f).length = l.length * k := by
  induction l with
  | nil => simp
  | cons b rest ih =>
    rw [List.flatMap_cons, List.length_append, h b (List.mem_cons_self _ _),
      ih fun x hx => h x (List.mem_cons_of_mem _ hx)]
    simp [List.length_cons]
    ring

/-- C6: the Orchestrator produces exactly `L*S*R` entries, one per (library,
scenario, repetition) triple; for a single library and single scenario with
`repetitions = 3` it yields exactly 3 entries whose `rep` values are 1, 2, 3
and whose `params` snapshots are identical (all equal to the one parameter
object resolved for that scenario). -/
theorem C6_orchestrator_cross_product (libraries benchmarks : List String)
    (repetitions : Nat) (params : String → P)
    (metricsOf : String → String → Nat → M)
    (durOf : String → String → Nat → ℚ) :
    (mainEntries libraries benchmarks repetitions params metricsOf durOf).length
        = libraries.length * benchmarks.length * repetitions
      ∧ ∀ lib scen,
          ((mainEntries [lib] [scen] 3 params metricsOf durOf).map fun e => e.rep)
              = [1, 2, 3]
            ∧ ∀ e ∈ mainEntries [lib] [scen] 3 params metricsOf durOf,
                e.params = params scen := by
  constructor
  · unfold mainEntries
    rw [length_bind_const _ _ (benchmarks.length * repetitions), mul_assoc]
    intro lib _
    rw [length_bind_const _ _ repetitions]
    intro scen _
    rw [List.length_map, List.length_range]
  · intro lib scen
    constructor
    · have hr : List.range 3 = [0, 1, 2] := by decide
      simp [mainEntries, runBenchmarkEntry, hr]
    · intro e he
      simp only [mainEntries, List.flatMap_cons, List.flatMap_nil, List.append_nil,
        List.mem_map] at he
      obtain ⟨rep, _, rfl⟩ := he
      rfl

/-- Witness for C6: the first of the three entries produced for one library and
one scenario carries the scenario's parameter snapshot. -/
theorem C6_orchestrator_cross_product_witness :
    (runBenchmarkEntry "asyncio" "task_spawn" (0 : Nat) (0 : Nat) 0 0
        ∈ mainEntries ["asyncio"] ["task_spawn"] 3 (fun _ => (0 : Nat))
          (fun _ _ _ => (0 : Nat)) (fun _ _ _ => 0))
      ∧ (runBenchmarkEntry "asyncio" "task_spawn" (0 : Nat) (0 : Nat) 0 0).params
        = (fun _ => (0 : Nat)) "task_spawn" := by
  have hmem : runBenchmarkEntry "asyncio" "task_spawn" (0 : Nat) (0 : Nat) 0 0
      ∈ mainEntries ["asyncio"] ["task_spawn"] 3 (fun _ => (0 : Nat))
        (fun _ _ _ => (0 : Nat)) (fun _ _ _ => 0) := by
    have hshape : mainEntries ["asyncio"] ["task_spawn"] 3 (fun _ => (0 : Nat))
        (fun _ _ _ => (0 : Nat)) (fun _ _ _ => 0)
        = [runBenchmarkEntry "asyncio" "task_spawn" (0 : Nat) (0 : Nat) 0 0,
           runBenchmarkEntry "asyncio" "task_spawn" (0 : Nat) (0 : Nat) 1 0,
           runBenchmarkEntry "asyncio" "task_spawn" (0 : Nat) (0 : Nat) 2 0] := rfl
    rw [hshape]
    exact List.mem_cons_self _ _
  exact ⟨hmem,
    (C6_orchestrator_cross_product ["asyncio"] ["task_spawn"] 3 (fun _ => (0 : Nat))
      (fun _ _ _ => (0 : Nat)) (fun _ _ _ => 0)).2 "asyncio" "task_spawn"
      |>.2 _ hmem⟩

end Orchestrator

/-! ## `benchmarks/io_bound.py` — seeded delay sequence (C7)

`run_io_bound` builds `rng = random.Random(params.seed)` and each simulated
call draws `rng.expovariate(1 / params.mean_delay_ms) / 1000`. The stdlib
generator is not part of the repository; it is modelled from the spec as an
arbitrary deterministic state machine: `init seed` is the state of
`random.Random(seed)` and `draw st` is the (value, next state) of one
`expovariate` call. The backend and the scheduler influence only the measured
wall-clock latency of each call, supplied by the environment `env` (the
latency of the `j`-th call in draw order). -/

section IOBound

variable {σ : Type}

structure IOBoundParams where
  concurrency : Nat
  ops_per_worker : Nat
  mean_delay_ms : ℚ
  seed : Nat

/-- The simulated I/O calls of one `run_io_bound` execution, in the order the
cooperative scheduler lets the workers draw from the shared `rng`: each call
draws one delay (`expovariate / 1000`) and records one measured latency.
Returns the list of (delay, recorded latency) pairs. -/
def ioBoundCalls (draw : σ → ℚ × σ) : Nat → σ → (Nat → ℚ) → List (ℚ × ℚ)
  | 0, _, _ => []
  | n + 1, st, env =>
    let d := draw st
    (d.1 / 1000, env 0) :: ioBoundCalls draw n d.2 fun j => env (j + 1)

/-- `run_io_bound`'s delay/latency trace: `concurrency * ops_per_worker` calls
drawn from the generator seeded with `params.seed`. -/
def runIoBoundTrace (draw : σ → ℚ × σ) (init : Nat → σ) (params : IOBoundParams)
    (env : Nat → ℚ) : List (ℚ × ℚ) :=
  ioBoundCalls draw (params.concurrency * params.ops_per_worker)
    (init params.seed) env

theorem ioBoundCalls_fst (draw : σ → ℚ × σ) :
    ∀ (n : Nat) (st : σ) (env₁ env₂ : Nat → ℚ),
      (ioBoundCalls draw n st env₁).map Prod.fst
        = (ioBoundCalls draw n st env₂).map Prod.fst := by
  intro n
  induction n with
  | zero => intro st env₁ env₂; rfl
  | succ m ih =>
    intro st env₁ env₂
    simp only [ioBoundCalls, List.map_cons]
    rw [ih]

/-- C7: two executions of the I/O-bound scenario with identical `IOBoundParams`
(in particular the same seed) draw identical sequences of per-call delays,
whatever backend and scheduler load produced the observed latencies: the
delay sequence is a function of the params alone, not of the environment. -/
theorem C7_io_bound_delay_determinism (draw : σ → ℚ × σ) (init : Nat → σ)
    (params : IOBoundParams) (env₁ env₂ : Nat → ℚ) :
    (runIoBoundTrace draw init params env₁).map Prod.fst
      = (runIoBoundTrace draw init params env₂).map Prod.fst :=
  ioBoundCalls_fst draw _ _ env₁ env₂

end IOBound

/-! ## `benchmarks/task_spawn.py` / `io_bound.py` — guarded throughput (C9) -/

section Throughput

/-- A Python float value as produced by the metric expressions: a finite number
or `float("inf")`. -/
inductive PyFloat where
  | val (q : ℚ)
  | inf
  deriving DecidableEq

/-- `run_task_spawn`'s throughput metric:
`task_count / elapsed if elapsed else float("inf")` — the division is attempted
only when `elapsed` is truthy (non-zero). `none` would mean an uncaught
`ZeroDivisionError`. -/
def tasks_per_sec (task_count : Nat) (elapsed : ℚ) : Option PyFloat :=
  if elapsed ≠ 0 then (pyDiv task_count elapsed).map .val else some .inf

/-- `run_io_bound`'s throughput metric:
`total_ops / elapsed if elapsed else float("inf")` with
`total_ops = concurrency * ops_per_worker`. -/
def ops_per_sec (concurrency ops_per_worker : Nat) (elapsed : ℚ) :
    Option PyFloat :=
  if elapsed ≠ 0 then (pyDiv (concurrency * ops_per_worker) elapsed).map .val
  else some .inf

/-- C9: the throughput computations are total — they never raise — and when the
measured elapsed time is 0 they report positive infinity instead of dividing
by zero. -/
theorem C9_throughput_division_guarded :
    ∀ (task_count concurrency ops_per_worker : Nat) (elapsed : ℚ),
      (tasks_per_sec task_count elapsed).isSome = true
        ∧ (ops_per_sec concurrency ops_per_worker elapsed).isSome = true
        ∧ tasks_per_sec task_count 0 = some .inf
        ∧ ops_per_sec concurrency ops_per_worker 0 = some .inf := by
  intro tc c opw elapsed
  refine ⟨?_, ?_, by simp [tasks_per_sec], by simp [ops_per_sec]⟩
  · by_cases h : elapsed = 0
    · simp [tasks_per_sec, h]
    · simp [tasks_per_sec, pyDiv, h]
  · by_cases h : elapsed = 0
    · simp [ops_per_sec, h]
    · simp [ops_per_sec, pyDiv, h]

end Throughput

/-! ## `benchmarks/cancellation.py` / `runner.py` — mutation after return (C8)

Object identity is modelled by a heap of Python dicts: `cancellation_storm`
and `run_benchmark` allocate the dict they return; `result.update(...)` in
`run_cancellation` and `entry["rep"] = ...`, `entry["duration_s"] = ...` in
`main` write to that same object after the producing call has returned. -/

section Mutation

/-- A Python value stored in one of the harness dicts: a number, a string, or
a reference to another heap object (the params / metrics sub-dicts). -/
inductive PyVal where
  | num (q : ℚ)
  | str (s : String)
  | ref (a : Nat)
  deriving DecidableEq

/-- A Python dict with string keys, as an ordered association list. -/
abbrev PyDict := List (String × PyVal)

/-- `d[k] = v`: overwrite the key in place if present, else append it. -/
def dictSet (d : PyDict) (k : String) (v : PyVal) : PyDict :=
  if d.any fun kv => kv.1 == k then
    d.map fun kv => if kv.1 == k then (k, v) else kv
  else d ++ [(k, v)]

/-- `d.update(upd)`: set each provided key in order. -/
def dictUpdate (d : PyDict) (upd : List (String × PyVal)) : PyDict :=
  upd.foldl (fun acc kv => dictSet acc kv.1 kv.2) d

/-- Heap of dict objects; an address is an index into `objs`. -/
structure Heap where
  objs : List PyDict
  deriving DecidableEq

def Heap.alloc (h : Heap) (d : PyDict) : Heap × Nat :=
  (⟨h.objs ++ [d]⟩, h.objs.length)

def Heap.write (h : Heap) (a : Nat) (d : PyDict) : Heap :=
  ⟨h.objs.set a d⟩

def Heap.read (h : Heap) (a : Nat) : Option PyDict :=
  h.objs.get? a

/-- The dict a backend's `cancellation_storm` returns:
`{"cancelled": ..., "exceptions": ..., "settle_s": ...}`. -/
def cancellationStormDict (c e : Nat) (s : ℚ) : PyDict :=
  [("cancelled", .num c), ("exceptions", .num e), ("settle_s", .num s)]

/-- `run_cancellation` from `benchmarks/cancellation.py`: the storm allocates
and returns its result dict; `result.update({"tasks": ..., "cancel_after_s":
..., "duration_s": ...})` then mutates that same object in place; the function
returns the final heap and the address of the result object. `c`, `e`, `s` are
the storm's counters and settle time, `dur` the measured total duration. -/
def run_cancellation (h : Heap) (task_count : Nat) (cancel_after_s : ℚ)
    (c e : Nat) (s dur : ℚ) : Heap × Nat :=
  let alloc := h.alloc (cancellationStormDict c e s)
  let updated := dictUpdate (cancellationStormDict c e s)
    [("tasks", .num task_count), ("cancel_after_s", .num cancel_after_s),
     ("duration_s", .num dur)]
  (alloc.1.write alloc.2 updated, alloc.2)

/-- The dict built and returned by `run_benchmark` in `runner.py`:
`{"library": ..., "scenario": ..., "params": ..., "metrics": ...}` (the params
snapshot and the metrics dict are separate heap objects). -/
def runBenchmarkDict (lib scen : String) (paramsAddr metricsAddr : Nat) :
    PyDict :=
  [("library", .str lib), ("scenario", .str scen), ("params", .ref paramsAddr),
   ("metrics", .ref metricsAddr)]

/-- One iteration of `main`'s inner loop: `entry = run_benchmark(...)`
allocates the entry dict, then `entry["rep"] = rep + 1` and
`entry["duration_s"] = ...` mutate that same object in place. -/
def mainLoopStep (h : Heap) (lib scen : String) (paramsAddr metricsAddr : Nat)
    (rep : Nat) (dur : ℚ) : Heap × Nat :=
  let alloc := h.alloc (runBenchmarkDict lib scen paramsAddr metricsAddr)
  let updated := dictSet
    (dictSet (runBenchmarkDict lib scen paramsAddr metricsAddr)
      "rep" (.num (rep + 1)))
    "duration_s" (.num dur)
  (alloc.1.write alloc.2 updated, alloc.2)

/-- C8 counterexample: with `task_count = 1`, `cancel_after = 0`, one cancelled
unit and zero measured times, the object `cancellation_storm` returned no
longer holds its original three-key value once `run_cancellation` finishes:
the metrics dict IS modified after the producing call has returned. -/
theorem C8_no_mutation_counterexample :
    ¬ ((run_cancellation ⟨[]⟩ 1 0 1 0 0 0).1.read
        (run_cancellation ⟨[]⟩ 1 0 1 0 0 0).2
      = some (cancellationStormDict 1 0 0)) := by decide

theorem alloc_write_frame (h : Heap) (d d' : PyDict) (a : Nat)
    (ha : a < h.objs.length) :
    (((h.alloc d).1.write (h.alloc d).2 d')).read a = h.read a := by
  unfold Heap.alloc Heap.write Heap.read
  simp only
  rw [List.get?_eq_getElem?, List.getElem?_set_ne (by omega),
    List.getElem?_append_left ha, List.get?_eq_getElem?]

theorem alloc_write_read (h : Heap) (d d' : PyDict) :
    (((h.alloc d).1.write (h.alloc d).2 d')).read (h.alloc d).2 = some d' := by
  unfold Heap.alloc Heap.write Heap.read
  simp only
  rw [List.get?_eq_getElem?, List.getElem?_set_self]
  simp

/-- C8 amended: every object existing before the call — in particular the
`ScenarioParams` value objects, which no operation ever writes — is unchanged;
but the dict returned by `cancellation_storm` is mutated in place by
`run_cancellation`, which appends the keys `tasks`, `cancel_after_s`,
`duration_s`, and the entry returned by `run_benchmark` is mutated in place by
`main`, which appends `rep` and `duration_s`; each of these later mutations
only appends new keys, leaving every key/value the producing call wrote in
place and unchanged. -/
theorem C8_mutation_amended (h : Heap) (task_count : Nat) (cancel_after_s : ℚ)
    (c e : Nat) (s dur : ℚ) (lib scen : String)
    (paramsAddr metricsAddr rep : Nat) (dur2 : ℚ) :
    (∀ a, a < h.objs.length →
      (run_cancellation h task_count cancel_after_s c e s dur).1.read a
        = h.read a)
    ∧ (run_cancellation h task_count cancel_after_s c e s dur).1.read
        (run_cancellation h task_count cancel_after_s c e s dur).2
      = some (cancellationStormDict c e s
          ++ [("tasks", .num task_count), ("cancel_after_s", .num cancel_after_s),
              ("duration_s", .num dur)])
    ∧ (∀ a, a < h.objs.length →
      (mainLoopStep h lib scen paramsAddr metricsAddr rep dur2).1.read a
        = h.read a)
    ∧ (mainLoopStep h lib scen paramsAddr metricsAddr rep dur2).1.read
        (mainLoopStep h lib scen paramsAddr metricsAddr rep dur2).2
      = some (runBenchmarkDict lib scen paramsAddr metricsAddr
          ++ [("rep", .num (rep + 1)), ("duration_s", .num dur2)]) := by
  refine ⟨?_, ?_, ?_, ?_⟩
  · intro a ha
    exact alloc_write_frame h _ _ a ha
  · have hupd : dictUpdate (cancellationStormDict c e s)
        [("tasks", .num task_count), ("cancel_after_s", .num cancel_after_s),
         ("duration_s", .num dur)]
        = cancellationStormDict c e s
          ++ [("tasks", .num task_count), ("cancel_after_s", .num cancel_after_s),
              ("duration_s", .num dur)] := by
      simp [dictUpdate, dictSet, cancellationStormDict]
    unfold run_cancellation
    rw [hupd] at *
    simpa [run_cancellation, hupd] using
      alloc_write_read h (cancellationStormDict c e s) _
  · intro a ha
    exact alloc_write_frame h _ _ a ha
  · have hupd : dictSet
        (dictSet (runBenchmarkDict lib scen paramsAddr metricsAddr)
          "rep" (.num (rep + 1)))
        "duration_s" (.num dur2)
        = runBenchmarkDict lib scen paramsAddr metricsAddr
          ++ [("rep", .num (rep + 1)), ("duration_s", .num dur2)] := by
      simp [dictSet, runBenchmarkDict]
    simpa [mainLoopStep, hupd] using
      alloc_write_read h (runBenchmarkDict lib scen paramsAddr metricsAddr) _

/-- Witness for the C8 amended theorem: a heap holding one params object at
address 0, which is untouched by `run_cancellation`. -/
theorem C8_mutation_amended_witness :
    0 < (Heap.mk [[("task_count", PyVal.num 1)]]).objs.length
      ∧ (run_cancellation (Heap.mk [[("task_count", PyVal.num 1)]]) 1 0 1 0 0 0).1.read 0
        = (Heap.mk [[("task_count", PyVal.num 1)]]).read 0 :=
  ⟨by decide,
   (C8_mutation_amended (Heap.mk [[("task_count", PyVal.num 1)]]) 1 0 1 0 0 0
      "asyncio" "cancellation" 0 0 0 0).1 0 (by decide)⟩

end Mutation

end AsyncBench
